import Mathlib

/-!
# Invite-token service: verification of the token store core

Shallow embedding of the invite-token service
(`src/invite-service/server.js`, PostgreSQL variant, and the SQLite
variant in `src/unnamed/part_000`).  The durable `tokens` table is
modelled as a list of records; each SQL statement the endpoints issue
is translated into a pure function on that list.  Randomness
(`crypto.randomBytes`, `Math.random`) is modelled by explicit oracles
passed as arguments.
-/

namespace InviteService

/-- A row of the `tokens` table (PostgreSQL schema, server.js lines
242-256: `token TEXT PRIMARY KEY, created_at TIMESTAMP, used INTEGER
DEFAULT 0, used_at TIMESTAMP, recipient_name TEXT, activated_by TEXT,
auth_provider TEXT, ip_address TEXT`).  Timestamps are modelled as
naturals, nullable columns as `Option`. -/
structure TokenRec where
  token : String
  createdAt : Nat
  used : Nat
  usedAt : Option Nat
  recipientName : Option String
  activatedBy : Option String
  authProvider : Option String
  ipAddress : Option String
deriving Repr, DecidableEq

/-- The `tokens` table: a list of rows. -/
abbrev Store := List TokenRec

/-- `SELECT * FROM tokens WHERE token = $1` (server.js line 124):
all rows whose key equals the given string. -/
def selectByToken (s : Store) (t : String) : List TokenRec :=
  s.filter (fun r => r.token == t)

/-- Result of `GET /api/verify/:token`: `{valid:true}`,
`{valid:false, reason:'not_found'}`, or `{valid:false, reason:'used'}`. -/
inductive VerifyResult where
  | valid
  | notFound
  | used
deriving Repr, DecidableEq

/-- `GET /api/verify/:token` (server.js lines 120-135): select the row;
no row gives `not_found`, `row.used === 1` gives `used`, otherwise
`valid:true`. -/
def verify (s : Store) (t : String) : VerifyResult :=
  match selectByToken s t with
  | [] => .notFound
  | row :: _ => if row.used == 1 then .used else .valid

/-- The verify endpoint as a state transformer: it only issues a
`SELECT`, so the store it leaves behind is the store it was given. -/
def verifyEndpoint (s : Store) (t : String) : Store × VerifyResult :=
  (s, verify s t)

/-- Result of `POST /api/consume/:token`: success (200), `Token not
found` (404), `Token already used` (400), or `Unknown failed` (500). -/
inductive ConsumeResult where
  | success
  | notFound
  | alreadyUsed
  | unknownFailed
deriving Repr, DecidableEq

/-- HTTP status the consume endpoint attaches to each outcome
(server.js lines 154-158). -/
def consumeStatus : ConsumeResult → Nat
  | .success => 200
  | .notFound => 404
  | .alreadyUsed => 400
  | .unknownFailed => 500

/-- Action of the consume `UPDATE` on one row: rows matching
`token = $1 AND used = 0` get `used = 1, used_at = CURRENT_TIMESTAMP,
activated_by = $2, auth_provider = $3, ip_address = $4`; all other rows
are untouched. -/
def consumeSet (t : String) (now : Nat) (email provider ip : String)
    (r : TokenRec) : TokenRec :=
  if r.token == t && r.used == 0 then
    { r with used := 1, usedAt := some now, activatedBy := some email,
             authProvider := some provider, ipAddress := some ip }
  else r

/-- `UPDATE tokens SET used = 1, used_at = CURRENT_TIMESTAMP,
activated_by = $2, auth_provider = $3, ip_address = $4
WHERE token = $1 AND used = 0` (server.js lines 148-151).  Returns the
updated table together with the affected row count (`result.rowCount`). -/
def consumeUpdate (s : Store) (t : String) (now : Nat)
    (email provider ip : String) : Store × Nat :=
  (s.map (consumeSet t now email provider ip),
   (s.filter (fun r => r.token == t && r.used == 0)).length)

/-- The diagnostic follow-up read of the consume endpoint
(server.js lines 153-156): `SELECT used FROM tokens WHERE token = $1`,
then classify: no row gives 404 `not_found`, `used === 1` gives 400
`already_used`, anything else gives 500 `Unknown failed`. -/
def consumeClassify (s : Store) (t : String) : ConsumeResult :=
  match selectByToken s t with
  | [] => .notFound
  | row :: _ => if row.used == 1 then .alreadyUsed else .unknownFailed

/-- `POST /api/consume/:token` (server.js lines 138-163): perform the
atomic conditional update; if it affected no row, run the diagnostic
follow-up read on the (unchanged) store; otherwise report success. -/
def consume (s : Store) (t : String) (now : Nat)
    (email provider ip : String) : Store × ConsumeResult :=
  let res := consumeUpdate s t now email provider ip
  if res.2 == 0 then (res.1, consumeClassify res.1 t)
  else (res.1, .success)

/-- Retry cap of the generation loop in server.js line 99
(`while (!token && retries < 5)`). -/
def serverRetryCap : Nat := 5

/-- Retry cap of the generation loop in the SQLite variant
(`const maxRetries = 10`, part_000 line 262). -/
def sqliteMaxRetries : Nat := 10

/-- One draw of the generation oracle: the candidate string produced by
`generateToken()` together with whether the `INSERT` raises a
non-duplicate store error on this attempt (duplicate-key errors are
determined by the store itself, not by the oracle). -/
abbrev GenOracle := Nat → String × Bool

/-- A fresh row as inserted by
`INSERT INTO tokens (token, recipient_name) VALUES ($1, $2)`
(server.js lines 102-105): `used` defaults to 0, `used_at` to NULL. -/
def freshRec (cand : String) (recName : Option String) (now : Nat) : TokenRec :=
  { token := cand, createdAt := now, used := 0, usedAt := none,
    recipientName := recName, activatedBy := none, authProvider := none,
    ipAddress := none }

/-- The per-token retry loop of `POST /api/generate`
(server.js lines 96-108): while no token has been inserted and fewer
than the cap of attempts have failed, draw a candidate and try the
insert.  The primary key makes the insert fail when the candidate is
already present; any insert failure — duplicate key or oracle-injected
store error — is caught and counted as a retry (`catch (e) { retries++; }`).
`fuel` is the number of attempts still allowed, `idx` the position of
the oracle's next draw; the result is the new store, the inserted token
(if any) and the next oracle position. -/
def insertLoop (oracle : GenOracle) (recName : Option String) (now : Nat) :
    Store → Nat → Nat → Store × Option String × Nat
  | s, idx, 0 => (s, none, idx)
  | s, idx, fuel + 1 =>
    let cand := (oracle idx).1
    if (oracle idx).2 then
      insertLoop oracle recName now s (idx + 1) fuel
    else if (selectByToken s cand).isEmpty then
      (s ++ [freshRec cand recName now], some cand, idx + 1)
    else
      insertLoop oracle recName now s (idx + 1) fuel

/-- The `for (let i = 0; i < count; i++)` loop of `POST /api/generate`
(server.js lines 96-110): run the retry loop once per requested token,
collecting the successfully inserted tokens (a token whose retries
exhaust is skipped). -/
def generateLoop (oracle : GenOracle) (recName : Option String) (now : Nat) :
    Store → Nat → Nat → Store × List String
  | s, _, 0 => (s, [])
  | s, idx, count + 1 =>
    match insertLoop oracle recName now s idx serverRetryCap with
    | (s', some tok, idx') =>
      let rest := generateLoop oracle recName now s' idx' count
      (rest.1, tok :: rest.2)
    | (s', none, idx') =>
      generateLoop oracle recName now s' idx' count

/-- `const count = req.body.count || 1` (server.js line 90): a missing
count and a count of 0 are both falsy in JavaScript, so both become 1. -/
def effectiveCount : Option Nat → Nat
  | none => 1
  | some 0 => 1
  | some n => n

/-- Response of `POST /api/generate`: either
`{success: true, generated: [...]}` or the 503
`Database disconnected` guard of `ensureDB` (server.js lines 45-50). -/
inductive GenResponse where
  | ok (tokens : List String)
  | storeDown
deriving Repr, DecidableEq

/-- `POST /api/generate` behind the `ensureDB` middleware: with no pool
the request is rejected with 503 before touching the store; otherwise
the generation loop runs on the effective count and the endpoint
replies `{success: true, generated: successfulTokens}` (server.js
line 111) whatever the individual inserts did. -/
def generateEndpoint (pool : Option Store) (oracle : GenOracle)
    (countBody : Option Nat) (recName : Option String) (now : Nat) :
    Option Store × GenResponse :=
  match pool with
  | none => (none, .storeDown)
  | some s =>
    let res := generateLoop oracle recName now s 0 (effectiveCount countBody)
    (some res.1, .ok res.2)

/-- `DELETE /api/reset` (server.js lines 192-201): `DELETE FROM tokens`. -/
def reset (_ : Store) : Store := []

/-- The JSON object `GET /api/analytics` replies with (server.js lines
177-184).  The conversion rate is modelled as the exact rational the
JavaScript expression `(used / total) * 100` computes before its
`toFixed(1) + '%'` formatting; `total = 0` yields the literal `'0%'`,
modelled as rate 0. -/
structure Analytics where
  total : Nat
  used : Nat
  unused : Nat
  rate : ℚ
  recent : List TokenRec
  latest : List TokenRec
deriving Repr

/-- Descending comparison on `used_at` used to model
`ORDER BY used_at DESC` (rows selected by the `recent` query all have
`used = 1`, whose `used_at` is non-null in every reachable store). -/
def usedAtDesc (a b : TokenRec) : Bool := b.usedAt.getD 0 ≤ a.usedAt.getD 0

/-- Descending comparison on `created_at` used to model
`ORDER BY created_at DESC`. -/
def createdAtDesc (a b : TokenRec) : Bool := b.createdAt ≤ a.createdAt

/-- `GET /api/analytics` (server.js lines 166-189): total count, used
count, `unused: total - used`, conversion rate, the ten most recently
used rows (`WHERE used = 1 ORDER BY used_at DESC LIMIT 10`) and the ten
most recently created rows (`ORDER BY created_at DESC LIMIT 10`). -/
def analytics (s : Store) : Analytics :=
  let total := s.length
  let used := (s.filter (fun r => r.used == 1)).length
  { total := total
    used := used
    unused := total - used
    rate := if 0 < total then (used : ℚ) * 100 / (total : ℚ) else 0
    recent := ((s.filter (fun r => r.used == 1)).mergeSort usedAtDesc).take 10
    latest := (s.mergeSort createdAtDesc).take 10 }

/-- The sixteen lowercase hexadecimal digits, the alphabet of
`Buffer.toString('hex')`. -/
def hexDigits : List Char := "0123456789abcdef".data

/-- Hex encoding of one byte: high nibble then low nibble. -/
def byteToHex (b : Nat) : List Char :=
  [hexDigits.getD (b / 16) '0', hexDigits.getD (b % 16) '0']

/-- `generateToken()` of server.js lines 52-54:
`crypto.randomBytes(4).toString('hex').slice(0, 7).toUpperCase()`.
The four random bytes are the explicit argument; they are hex-encoded
(two digits per byte), the first seven characters are kept and
uppercased. -/
def generateToken (bytes : List Nat) : String :=
  String.mk (((bytes.flatMap byteToHex).take 7).map Char.toUpper)

/-- The 36-character alphabet of the SQLite variant's generator
(`const chars = 'ABCDEFGHIJKLMNOPQRSTUVWXYZ0123456789'`,
part_000 line 248). -/
def sqliteAlphabet : List Char :=
  "ABCDEFGHIJKLMNOPQRSTUVWXYZ0123456789".data

/-- The sixteen characters `generateToken` can actually produce:
the uppercase hexadecimal digits. -/
def hexUpperAlphabet : List Char := "0123456789ABCDEF".data

/-- `generateRandomToken()` of the SQLite variant (part_000 lines
247-255): seven characters, each `chars.charAt(Math.floor(Math.random()
* chars.length))`.  The seven random draws, each an index below 36, are
the explicit argument. -/
def generateRandomToken (pick : Nat → Fin 36) : String :=
  String.mk ((List.range 7).map (fun i => sqliteAlphabet.getD (pick i).val 'A'))

/-- Well-formedness of one row: `used` is the 0/1 integer flag of the
schema, and `used_at` is non-null exactly when the row is used. -/
def wfRec (r : TokenRec) : Prop :=
  (r.used = 0 ∨ r.used = 1) ∧ (r.used = 1 ↔ r.usedAt ≠ none)

/-- Well-formedness of the whole table. -/
def wfStore (s : Store) : Prop := ∀ r ∈ s, wfRec r

/-- Primary-key uniqueness of the `tokens` table: no two rows share a
key. -/
def uniqueTokens (s : Store) : Prop :=
  s.Pairwise (fun a b => a.token ≠ b.token)

/-! ## Helper lemmas about the embedded SQL statements -/

theorem selectByToken_eq_nil {s : Store} {t : String}
    (h : ∀ r ∈ s, r.token ≠ t) : selectByToken s t = [] := by
  simp only [selectByToken, List.filter_eq_nil_iff]
  intro r hr
  simpa using h r hr

theorem selectByToken_singleton {s : Store} {t : String}
    (huniq : uniqueTokens s) {r : TokenRec} (hr : r ∈ s) (ht : r.token = t) :
    selectByToken s t = [r] := by
  induction s with
  | nil => cases hr
  | cons a s ih =>
    rcases List.pairwise_cons.mp huniq with ⟨ha, huniq'⟩
    rcases List.mem_cons.mp hr with rfl | hr'
    · have : selectByToken s t = [] :=
        selectByToken_eq_nil (fun b hb => by
          intro hbt; exact ha b hb (ht.trans hbt.symm))
      simp [selectByToken, List.filter_cons, ht] at this ⊢
      exact this
    · have hat : a.token ≠ t := by
        intro hat; exact ha r hr' (hat.trans ht.symm)
      have : selectByToken (a :: s) t = selectByToken s t := by
        simp [selectByToken, List.filter_cons, hat]
      rw [this]
      exact ih huniq' hr'

theorem mem_of_mem_selectByToken {s : Store} {t : String} {r : TokenRec}
    (h : r ∈ selectByToken s t) : r ∈ s ∧ r.token = t := by
  have := List.mem_filter.mp h
  exact ⟨this.1, by simpa using this.2⟩

theorem selectByToken_cases (s : Store) (t : String) (huniq : uniqueTokens s) :
    selectByToken s t = [] ∨ ∃ r, r ∈ s ∧ r.token = t ∧ selectByToken s t = [r] := by
  by_cases h : ∃ r ∈ s, r.token = t
  · obtain ⟨r, hr, ht⟩ := h
    exact .inr ⟨r, hr, ht, selectByToken_singleton huniq hr ht⟩
  · push_neg at h
    exact .inl (selectByToken_eq_nil h)

/-- The affected-row count of the conditional update is the number of
rows with the given key whose `used` flag is 0. -/
theorem consumeUpdate_rowCount (s : Store) (t : String) (now : Nat)
    (e p ip : String) :
    (consumeUpdate s t now e p ip).2 =
      ((selectByToken s t).filter (fun r => r.used == 0)).length := by
  simp only [consumeUpdate, selectByToken, List.filter_filter]
  congr 1
  exact List.filter_congr (fun r _ => by rw [Bool.and_comm])

/-- When the conditional update affects no row, it leaves the table
unchanged. -/
theorem consumeUpdate_store_of_zero {s : Store} {t : String} {now : Nat}
    {e p ip : String} (h : (consumeUpdate s t now e p ip).2 = 0) :
    (consumeUpdate s t now e p ip).1 = s := by
  have hnil : s.filter (fun r => r.token == t && r.used == 0) = [] :=
    List.length_eq_zero.mp h
  have hnone : ∀ r ∈ s, (r.token == t && r.used == 0) = false := by
    intro r hr
    by_contra hcon
    have : r ∈ s.filter (fun r => r.token == t && r.used == 0) :=
      List.mem_filter.mpr ⟨hr, by revert hcon; cases (r.token == t && r.used == 0) <;> simp⟩
    rw [hnil] at this
    cases this
  show s.map _ = s
  have : ∀ r ∈ s, consumeSet t now e p ip r = r := by
    intro r hr
    unfold consumeSet
    rw [hnone r hr]
    simp
  calc s.map _ = s.map id := List.map_congr_left this
    _ = s := List.map_id s

/-- The diagnostic follow-up read never reports success. -/
theorem consumeClassify_ne_success (s : Store) (t : String) :
    consumeClassify s t ≠ .success := by
  unfold consumeClassify
  split
  · simp
  · split <;> simp

/-! ## Claim theorems -/

/-- C4.  For every store and token string, Verify returns `not_found`
when no row with that exact key exists, `used` when the row's `used`
flag is 1, and `valid:true` otherwise; the endpoint issues only a
`SELECT`, so the store is left unchanged and repeated calls return the
same result. -/
theorem verify_spec (s : Store) (t : String) (huniq : uniqueTokens s) :
    (verifyEndpoint s t).1 = s ∧
    ((∀ r ∈ s, r.token ≠ t) → (verifyEndpoint s t).2 = .notFound) ∧
    (∀ r ∈ s, r.token = t → r.used = 1 → (verifyEndpoint s t).2 = .used) ∧
    (∀ r ∈ s, r.token = t → r.used ≠ 1 → (verifyEndpoint s t).2 = .valid) ∧
    verifyEndpoint (verifyEndpoint s t).1 t = verifyEndpoint s t := by
  refine ⟨rfl, ?_, ?_, ?_, rfl⟩
  · intro h
    simp [verifyEndpoint, verify, selectByToken_eq_nil h]
  · intro r hr ht hu
    simp [verifyEndpoint, verify, selectByToken_singleton huniq hr ht, hu]
  · intro r hr ht hu
    simp [verifyEndpoint, verify, selectByToken_singleton huniq hr ht, hu]

/-- C2.  Consume returns success exactly when its single conditional
update affected one row; when it affected zero rows the follow-up read
classifies the outcome as `not_found` (no row with that key) or
`already_used` (row present with `used = 1`); and the resulting store
is always the one produced by the conditional update alone, so the
follow-up read never influences whether the mutation happens. -/
theorem consume_spec (s : Store) (t : String) (now : Nat) (e p ip : String)
    (huniq : uniqueTokens s) :
    (consume s t now e p ip).1 = (consumeUpdate s t now e p ip).1 ∧
    ((consume s t now e p ip).2 = .success ↔
      (consumeUpdate s t now e p ip).2 = 1) ∧
    ((consumeUpdate s t now e p ip).2 = 0 →
      ((∀ r ∈ s, r.token ≠ t) → (consume s t now e p ip).2 = .notFound) ∧
      (∀ r ∈ s, r.token = t → r.used = 1 →
        (consume s t now e p ip).2 = .alreadyUsed)) := by
  have hle : (consumeUpdate s t now e p ip).2 ≤ 1 := by
    rw [consumeUpdate_rowCount]
    rcases selectByToken_cases s t huniq with hnil | ⟨r, _, _, hone⟩
    · simp [hnil]
    · calc ((selectByToken s t).filter (fun r => r.used == 0)).length
          ≤ (selectByToken s t).length := List.length_filter_le _ _
        _ = 1 := by rw [hone]; rfl
  refine ⟨?_, ?_, ?_⟩
  · unfold consume
    dsimp only
    split <;> rfl
  · unfold consume
    dsimp only
    split
    · rename_i hz
      simp only [beq_iff_eq] at hz
      constructor
      · intro hcl
        exact absurd hcl (consumeClassify_ne_success _ _)
      · intro h1
        rw [hz] at h1
        cases h1
    · rename_i hnz
      simp only [beq_iff_eq] at hnz
      constructor
      · intro _
        omega
      · intro _
        rfl
  · intro hz
    have hstore := consumeUpdate_store_of_zero hz
    have hbr : consume s t now e p ip =
        ((consumeUpdate s t now e p ip).1,
          consumeClassify (consumeUpdate s t now e p ip).1 t) := by
      unfold consume
      dsimp only
      split
      · rfl
      · rename_i hnz
        simp only [beq_iff_eq] at hnz
        exact absurd hz hnz
    constructor
    · intro h
      rw [hbr, hstore]
      simp [consumeClassify, selectByToken_eq_nil h]
    · intro r hr ht hu
      rw [hbr, hstore]
      simp [consumeClassify, selectByToken_singleton huniq hr ht, hu]

/-- Witness for `consume_spec`: a fresh token is consumed with success,
and consuming against the empty table reports `not_found`. -/
theorem consume_spec_witness :
    (consume [freshRec "AAA1111" none 0] "AAA1111" 5 "e" "p" "i").2 =
      .success ∧
    (consume [] "AAA1111" 5 "e" "p" "i").2 = .notFound := by
  constructor
  · exact ((consume_spec [freshRec "AAA1111" none 0] "AAA1111" 5 "e" "p" "i"
      (by unfold uniqueTokens; decide)).2.1).mpr (by decide)
  · exact ((consume_spec [] "AAA1111" 5 "e" "p" "i"
      (by unfold uniqueTokens; decide)).2.2 (by decide)).1 (by simp)

/-- C10.  Consume has a third terminal outcome, `Unknown failed`, with
HTTP status 500, reached only when the conditional update affects zero
rows yet the follow-up read still finds the row with `used` neither
flagged nor 1; whenever that outcome is reported the store is
unchanged, the branch is exercised by an (unreachable) store holding a
row with `used = 2`, and on every well-formed store a sequential
Consume never reaches it. -/
theorem consume_unknown_branch (s : Store) (t : String) (now : Nat)
    (e p ip : String) (hwf : wfStore s) :
    consumeStatus .unknownFailed = 500 ∧
    (∀ s' : Store, (consume s' t now e p ip).2 = .unknownFailed →
      (consume s' t now e p ip).1 = s') ∧
    (consume [{ freshRec t none 0 with used := 2 }] t now e p ip).2 =
      .unknownFailed ∧
    (consume s t now e p ip).2 ≠ .unknownFailed := by
  refine ⟨rfl, ?_, ?_, ?_⟩
  · intro s' hres
    unfold consume at hres ⊢
    dsimp only at hres ⊢
    split
    · rename_i hz
      simp only [beq_iff_eq] at hz
      exact consumeUpdate_store_of_zero hz
    · rename_i hnz
      rw [if_neg hnz] at hres
      cases hres
  · simp [consume, consumeUpdate, consumeSet, consumeClassify, selectByToken,
      freshRec]
  · unfold consume
    dsimp only
    split
    · rename_i hz
      simp only [beq_iff_eq] at hz
      have hstore := consumeUpdate_store_of_zero hz
      rw [hstore]
      intro hcl
      simp only at hcl
      unfold consumeClassify at hcl
      revert hcl
      split
      · simp
      · rename_i row rest hsel
        have hrow : row ∈ selectByToken s t := by rw [hsel]; simp
        obtain ⟨hrs, hrt⟩ := mem_of_mem_selectByToken hrow
        rcases (hwf row hrs).1 with h0 | h1
        · exfalso
          have hmem : row ∈ s.filter (fun r => r.token == t && r.used == 0) :=
            List.mem_filter.mpr ⟨hrs, by simp [hrt, h0]⟩
          have : s.filter (fun r => r.token == t && r.used == 0) = [] := by
            have := hz
            rw [consumeUpdate_rowCount] at this
            rw [consumeUpdate_rowCount] at hz
            have : ((selectByToken s t).filter (fun r => r.used == 0)) = [] :=
              List.length_eq_zero.mp hz
            have h2 : row ∈ (selectByToken s t).filter (fun r => r.used == 0) :=
              List.mem_filter.mpr ⟨hrow, by simp [h0]⟩
            rw [this] at h2
            cases h2
          rw [this] at hmem
          cases hmem
        · simp [h1]
    · simp

/-- Witness for `consume_unknown_branch` on a concrete well-formed
store. -/
theorem consume_unknown_branch_witness :
    (consume [freshRec "AAA1111" none 0] "AAA1111" 5 "e" "p" "i").2 ≠
      .unknownFailed := by
  exact (consume_unknown_branch [freshRec "AAA1111" none 0] "AAA1111" 5
    "e" "p" "i" (by unfold wfStore wfRec; decide)).2.2.2

/-- C3.  `POST /api/generate` with body `{count: 0}`: JavaScript's
`req.body.count || 1` treats the number 0 as falsy, so the endpoint
runs the loop once and — here with a clean insert — creates one record
and returns a one-element sequence, not the empty one. -/
theorem generate_count_zero_creates_one :
    effectiveCount (some 0) = 1 ∧
    generateEndpoint (some []) (fun _ => ("ABCD123", false)) (some 0) none 0 =
      (some [freshRec "ABCD123" none 0], .ok ["ABCD123"]) ∧
    GenResponse.ok ["ABCD123"] ≠ .ok [] := by
  exact ⟨rfl, by decide, by decide⟩

/-- Every character a `generateToken` output can contain is an
uppercase hexadecimal digit. -/
theorem generateToken_chars_hex {bytes : List Nat}
    (hb : ∀ b ∈ bytes, b < 256) :
    ∀ c ∈ (generateToken bytes).data, c ∈ hexUpperAlphabet := by
  have key : ∀ i, i < 16 → (hexDigits.getD i '0').toUpper ∈ hexUpperAlphabet := by
    decide
  intro c hc
  obtain ⟨d, hd, rfl⟩ := List.mem_map.mp hc
  have hd' := List.mem_of_mem_take hd
  obtain ⟨b, hbmem, hdb⟩ := List.mem_flatMap.mp hd'
  have hblt := hb b hbmem
  unfold byteToHex at hdb
  rcases List.mem_cons.mp hdb with rfl | hdb'
  · exact key _ (Nat.div_lt_of_lt_mul (by omega))
  · rcases List.mem_cons.mp hdb' with rfl | h
    · exact key _ (Nat.mod_lt _ (by omega))
    · cases h

/-- C6 as stated by the spec: every candidate drawn by token generation
is exactly 7 characters from the 36-character alphabet `A-Z0-9`, and
every character of that alphabet can occur.  Stated for the primary
service's `generateToken` (4 random bytes, each below 256). -/
def tokenAlphabetClaim : Prop :=
  (∀ bytes : List Nat, (∀ b ∈ bytes, b < 256) → bytes.length = 4 →
    (generateToken bytes).length = 7 ∧
    ∀ c ∈ (generateToken bytes).data, c ∈ sqliteAlphabet) ∧
  ∀ c ∈ sqliteAlphabet, ∃ bytes : List Nat,
    (∀ b ∈ bytes, b < 256) ∧ bytes.length = 4 ∧ c ∈ (generateToken bytes).data

/-- C6 counterexample: the claim fails because `generateToken` hex
encodes its random bytes, so the letter `G` — a member of the claimed
36-character alphabet — can never occur in any candidate. -/
theorem tokenAlphabetClaim_false : ¬ tokenAlphabetClaim := by
  intro h
  obtain ⟨bytes, hb, _, hG⟩ := h.2 'G' (by decide)
  have hmem := generateToken_chars_hex hb 'G' hG
  revert hmem
  decide

/-- C6 amended.  `generateToken` of the primary service
(`crypto.randomBytes(4).toString('hex').slice(0,7).toUpperCase()`)
yields exactly 7 characters drawn from the 16-character uppercase
hexadecimal alphabet `0-9A-F`; the SQLite variant's
`generateRandomToken` yields exactly 7 characters from the full
36-character alphabet `A-Z0-9`, and there every character of that
alphabet can occur. -/
theorem token_alphabets :
    (∀ bytes : List Nat, (∀ b ∈ bytes, b < 256) → bytes.length = 4 →
      (generateToken bytes).length = 7 ∧
      ∀ c ∈ (generateToken bytes).data, c ∈ hexUpperAlphabet) ∧
    (∀ pick : Nat → Fin 36,
      (generateRandomToken pick).length = 7 ∧
      ∀ c ∈ (generateRandomToken pick).data, c ∈ sqliteAlphabet) ∧
    (∀ c ∈ sqliteAlphabet, ∃ pick : Nat → Fin 36,
      c ∈ (generateRandomToken pick).data) := by
  refine ⟨?_, ?_, ?_⟩
  · intro bytes hb h4
    refine ⟨?_, generateToken_chars_hex hb⟩
    match bytes, h4 with
    | [b0, b1, b2, b3], _ => rfl
  · intro pick
    have key : ∀ i : Fin 36, sqliteAlphabet.getD i.val 'A' ∈ sqliteAlphabet := by
      decide
    constructor
    · rfl
    · intro c hc
      obtain ⟨i, _, rfl⟩ := List.mem_map.mp hc
      exact key _
  · intro c hcmem
    have key : ∀ c ∈ sqliteAlphabet, ∃ i : Fin 36,
        sqliteAlphabet.getD i.val 'A' = c := by decide
    obtain ⟨i, hi⟩ := key c hcmem
    refine ⟨fun _ => i, ?_⟩
    show c ∈ (List.range 7).map (fun _ => sqliteAlphabet.getD i.val 'A')
    exact hi ▸ List.mem_map.mpr ⟨0, by simp, rfl⟩

/-- Witness for `token_alphabets` on the concrete byte draw
`[171, 205, 18, 52]` (hex `abcd1234`, token `ABCD123`). -/
theorem token_alphabets_witness :
    (generateToken [171, 205, 18, 52]).length = 7 ∧
    ∀ c ∈ (generateToken [171, 205, 18, 52]).data, c ∈ hexUpperAlphabet :=
  token_alphabets.1 [171, 205, 18, 52] (by decide) (by decide)

theorem usedAtDesc_trans :
    ∀ a b c, usedAtDesc a b → usedAtDesc b c → usedAtDesc a c := by
  intro a b c
  simp only [usedAtDesc, decide_eq_true_eq]
  omega

theorem usedAtDesc_total : ∀ a b, usedAtDesc a b || usedAtDesc b a := by
  intro a b
  simp only [usedAtDesc, Bool.or_eq_true, decide_eq_true_eq]
  omega

theorem createdAtDesc_trans :
    ∀ a b c, createdAtDesc a b → createdAtDesc b c → createdAtDesc a c := by
  intro a b c
  simp only [createdAtDesc, decide_eq_true_eq]
  omega

theorem createdAtDesc_total : ∀ a b, createdAtDesc a b || createdAtDesc b a := by
  intro a b
  simp only [createdAtDesc, Bool.or_eq_true, decide_eq_true_eq]
  omega

/-- C9.  Stats returns `unused = total - used` and a conversion rate of
`used/total` as a percentage, 0 when the table is empty; the
recently-used and recently-created lists hold at most ten rows each and
are ordered most recent first (descending `used_at`, resp.
`created_at`). -/
theorem analytics_spec (s : Store) :
    (analytics s).unused = (analytics s).total - (analytics s).used ∧
    ((analytics s).total = 0 → (analytics s).rate = 0) ∧
    (0 < (analytics s).total →
      (analytics s).rate =
        ((analytics s).used : ℚ) * 100 / ((analytics s).total : ℚ)) ∧
    (analytics s).recent.length ≤ 10 ∧
    (analytics s).latest.length ≤ 10 ∧
    (analytics s).recent.Pairwise (fun a b => usedAtDesc a b = true) ∧
    (analytics s).latest.Pairwise (fun a b => createdAtDesc a b = true) := by
  refine ⟨rfl, ?_, ?_, ?_, ?_, ?_, ?_⟩
  · intro h
    unfold analytics
    simp only
    rw [if_neg]
    unfold analytics at h
    simp only at h
    omega
  · intro h
    unfold analytics at h ⊢
    simp only at h ⊢
    rw [if_pos h]
  · exact (List.length_take_le _ _).trans (by rfl)
  · exact (List.length_take_le _ _).trans (by rfl)
  · exact ((List.sorted_mergeSort usedAtDesc_trans usedAtDesc_total
      (s.filter (fun r => r.used == 1))).sublist (List.take_sublist _ _))
  · exact ((List.sorted_mergeSort createdAtDesc_trans createdAtDesc_total
      s).sublist (List.take_sublist _ _))

/-- Witness for `analytics_spec` on the empty table (rate 0) and a
one-row table (rate 100). -/
theorem analytics_spec_witness :
    (analytics []).rate = 0 ∧
    (analytics [{ freshRec "AAA1111" none 0 with
        used := 1, usedAt := some 3 }]).rate =
      ((analytics [{ freshRec "AAA1111" none 0 with
        used := 1, usedAt := some 3 }]).used : ℚ) * 100 /
      ((analytics [{ freshRec "AAA1111" none 0 with
        used := 1, usedAt := some 3 }]).total : ℚ) := by
  constructor
  · exact (analytics_spec []).2.1 rfl
  · exact (analytics_spec _).2.2.1 (by decide)

/-- Unfolding equation for the successor case of the generation loop. -/
theorem generateLoop_succ (oracle : GenOracle) (recName : Option String)
    (now : Nat) (s : Store) (idx count : Nat) :
    generateLoop oracle recName now s idx (count + 1) =
      match insertLoop oracle recName now s idx serverRetryCap with
      | (s', some tok, idx') =>
        ((generateLoop oracle recName now s' idx' count).1,
         tok :: (generateLoop oracle recName now s' idx' count).2)
      | (s', none, idx') => generateLoop oracle recName now s' idx' count := rfl

/-- The retry loop either exhausts its attempts leaving the table
unchanged, or appends exactly one fresh row whose key was absent; in
either case it consumes at most `fuel` draws from the oracle. -/
theorem insertLoop_cases (oracle : GenOracle) (recName : Option String)
    (now : Nat) :
    ∀ (fuel : Nat) (s : Store) (idx : Nat),
      (∃ idx2, insertLoop oracle recName now s idx fuel = (s, none, idx2) ∧
        idx2 ≤ idx + fuel) ∨
      (∃ cand idx2, insertLoop oracle recName now s idx fuel =
          (s ++ [freshRec cand recName now], some cand, idx2) ∧
        selectByToken s cand = [] ∧ idx2 ≤ idx + fuel) := by
  intro fuel
  induction fuel with
  | zero => intro s idx; exact .inl ⟨idx, rfl, Nat.le_refl _⟩
  | succ fuel ih =>
    intro s idx
    simp only [insertLoop]
    by_cases hf : (oracle idx).2
    · rw [if_pos hf]
      rcases ih s (idx + 1) with ⟨idx2, heq, hle⟩ | ⟨cand, idx2, heq, hsel, hle⟩
      · exact .inl ⟨idx2, heq, by omega⟩
      · exact .inr ⟨cand, idx2, heq, hsel, by omega⟩
    · rw [if_neg hf]
      by_cases hsel : (selectByToken s (oracle idx).1).isEmpty
      · rw [if_pos hsel]
        exact .inr ⟨(oracle idx).1, idx + 1, rfl,
          List.isEmpty_iff.mp hsel, by omega⟩
      · rw [if_neg hsel]
        rcases ih s (idx + 1) with ⟨idx2, heq, hle⟩ | ⟨cand, idx2, heq, hs2, hle⟩
        · exact .inl ⟨idx2, heq, by omega⟩
        · exact .inr ⟨cand, idx2, heq, hs2, by omega⟩

/-- Rows present before the generation loop are still present after it. -/
theorem generateLoop_mem (oracle : GenOracle) (recName : Option String)
    (now : Nat) :
    ∀ (count : Nat) (s : Store) (idx : Nat) (r : TokenRec), r ∈ s →
      r ∈ (generateLoop oracle recName now s idx count).1 := by
  intro count
  induction count with
  | zero => intro s idx r hr; exact hr
  | succ count ih =>
    intro s idx r hr
    rw [generateLoop_succ]
    rcases insertLoop_cases oracle recName now serverRetryCap s idx with
      ⟨idx2, heq, _⟩ | ⟨cand, idx2, heq, _, _⟩
    · rw [heq]
      exact ih s idx2 r hr
    · rw [heq]
      simp only
      exact ih _ idx2 r (List.mem_append_left _ hr)

/-- The generation loop returns at most as many tokens as requested. -/
theorem generateLoop_len (oracle : GenOracle) (recName : Option String)
    (now : Nat) :
    ∀ (count : Nat) (s : Store) (idx : Nat),
      (generateLoop oracle recName now s idx count).2.length ≤ count := by
  intro count
  induction count with
  | zero => intro s idx; simp [generateLoop]
  | succ count ih =>
    intro s idx
    rw [generateLoop_succ]
    rcases insertLoop_cases oracle recName now serverRetryCap s idx with
      ⟨idx2, heq, _⟩ | ⟨cand, idx2, heq, _, _⟩
    · rw [heq]
      exact (ih s idx2).trans (by omega)
    · rw [heq]
      simpa using ih _ idx2

/-- Every token the generation loop returns names a row of the final
table. -/
theorem generateLoop_tokens_in_store (oracle : GenOracle)
    (recName : Option String) (now : Nat) :
    ∀ (count : Nat) (s : Store) (idx : Nat),
      ∀ tok ∈ (generateLoop oracle recName now s idx count).2,
        ∃ r ∈ (generateLoop oracle recName now s idx count).1,
          r.token = tok := by
  intro count
  induction count with
  | zero => intro s idx tok htok; simp [generateLoop] at htok
  | succ count ih =>
    intro s idx tok htok
    rw [generateLoop_succ] at htok ⊢
    rcases insertLoop_cases oracle recName now serverRetryCap s idx with
      ⟨idx2, heq, _⟩ | ⟨cand, idx2, heq, _, _⟩
    · rw [heq] at htok ⊢
      exact ih s idx2 tok htok
    · rw [heq] at htok ⊢
      simp only [List.mem_cons] at htok
      rcases htok with rfl | htok
      · refine ⟨freshRec tok recName now, ?_, rfl⟩
        exact generateLoop_mem oracle recName now count _ idx2 _
          (List.mem_append_right _ (by simp))
      · exact ih _ idx2 tok htok

/-- C5.  For every requested count `K ≥ 1` Generate terminates by
construction and never throws: the per-token retry cap is 5 in the
primary service and 10 in the SQLite variant (both within the 5-10
budget), each requested token consumes at most cap draws from the
oracle, a token whose retries exhaust is skipped while the loop
continues, and the call returns at most `K` tokens, each of which names
a successfully inserted row of the final table. -/
theorem generate_bounded (oracle : GenOracle) (s : Store) (count : Nat)
    (recName : Option String) (now idx : Nat) (_hcount : 1 ≤ count) :
    5 ≤ serverRetryCap ∧ serverRetryCap ≤ 10 ∧
    5 ≤ sqliteMaxRetries ∧ sqliteMaxRetries ≤ 10 ∧
    (∀ (fuel : Nat) (s' : Store) (i : Nat),
      (insertLoop oracle recName now s' i fuel).2.2 ≤ i + fuel) ∧
    (generateLoop oracle recName now s idx count).2.length ≤ count ∧
    ∀ tok ∈ (generateLoop oracle recName now s idx count).2,
      ∃ r ∈ (generateLoop oracle recName now s idx count).1,
        r.token = tok := by
  refine ⟨by decide, by decide, by decide, by decide, ?_,
    generateLoop_len oracle recName now count s idx,
    generateLoop_tokens_in_store oracle recName now count s idx⟩
  intro fuel s' i
  rcases insertLoop_cases oracle recName now fuel s' i with
    ⟨idx2, heq, hle⟩ | ⟨cand, idx2, heq, _, hle⟩
  · rw [heq]; exact hle
  · rw [heq]; exact hle

/-- Witness for `generate_bounded`: two tokens requested against the
empty table with an oracle that first collides with itself. -/
theorem generate_bounded_witness :
    (generateLoop (fun i => (if i == 0 then "AAA1111" else "AAA1111", false))
      none 0 [] 0 2).2.length ≤ 2 := by
  exact (generate_bounded (fun i => (if i == 0 then "AAA1111" else "AAA1111", false))
    [] 2 none 0 0 (by decide)).2.2.2.2.2.1

/-- C7 as stated by the spec, instantiated to a run in which every
insert attempt raises a non-duplicate store error: such a run must not
yield a success response. -/
def generateErrorClaim : Prop :=
  ∀ (oracle : GenOracle) (s : Store) (countBody : Option Nat)
    (recName : Option String) (now : Nat),
    (∀ i, (oracle i).2 = true) → 1 ≤ effectiveCount countBody →
    ∀ toks, (generateEndpoint (some s) oracle countBody recName now).2 ≠
      .ok toks

/-- C7 counterexample: with an oracle whose every insert attempt raises
a non-duplicate store error, `POST /api/generate` with count 1 still
replies `{success: true, generated: []}` — the catch-all
`catch (e) { retries++; }` absorbs the error like a duplicate. -/
theorem generateErrorClaim_false : ¬ generateErrorClaim := by
  intro h
  exact h (fun _ => ("AAA1111", true)) [] (some 1) none 0
    (fun _ => rfl) (by decide) [] (by decide)

/-- C7 amended.  A store that is unreachable when the request arrives
is surfaced as the distinct 503 `storeDown` fault, never as a domain
outcome or success; but once the pool exists, `POST /api/generate`
always replies with the success shape: duplicate-key collisions and
non-duplicate store errors during individual inserts are both absorbed
by the bounded retry, never surfaced. -/
theorem store_errors_surfacing (oracle : GenOracle) (countBody : Option Nat)
    (recName : Option String) (now : Nat) :
    (generateEndpoint none oracle countBody recName now).2 = .storeDown ∧
    (∀ toks, GenResponse.storeDown ≠ .ok toks) ∧
    (∀ s : Store, ∃ toks,
      (generateEndpoint (some s) oracle countBody recName now).2 =
        .ok toks) := by
  refine ⟨rfl, ?_, ?_⟩
  · intro toks h
    cases h
  · intro s
    exact ⟨_, rfl⟩

/-- Witness for `store_errors_surfacing` at a concrete oracle and
request. -/
theorem store_errors_surfacing_witness :
    (generateEndpoint none (fun _ => ("AAA1111", false)) (some 1) none 0).2 =
      .storeDown ∧
    ∃ toks, (generateEndpoint (some []) (fun _ => ("AAA1111", false))
      (some 1) none 0).2 = .ok toks := by
  exact ⟨(store_errors_surfacing (fun _ => ("AAA1111", false)) (some 1)
      none 0).1,
    (store_errors_surfacing (fun _ => ("AAA1111", false)) (some 1)
      none 0).2.2 []⟩

theorem wf_freshRec (cand : String) (recName : Option String) (now : Nat) :
    wfRec (freshRec cand recName now) := by
  unfold wfRec freshRec
  simp

/-- Both branches of the consume endpoint leave exactly the store the
conditional update produced. -/
theorem consume_fst (s : Store) (t : String) (now : Nat) (e p ip : String) :
    (consume s t now e p ip).1 = (consumeUpdate s t now e p ip).1 := by
  unfold consume
  dsimp only
  split <;> rfl

theorem wfStore_generateLoop (oracle : GenOracle) (recName : Option String)
    (now : Nat) :
    ∀ (count : Nat) (s : Store) (idx : Nat), wfStore s →
      wfStore (generateLoop oracle recName now s idx count).1 := by
  intro count
  induction count with
  | zero => intro s idx hwf; exact hwf
  | succ count ih =>
    intro s idx hwf
    rw [generateLoop_succ]
    rcases insertLoop_cases oracle recName now serverRetryCap s idx with
      ⟨idx2, heq, _⟩ | ⟨cand, idx2, heq, _, _⟩
    · rw [heq]
      exact ih s idx2 hwf
    · rw [heq]
      simp only
      refine ih _ idx2 ?_
      intro r hr
      rcases List.mem_append.mp hr with hr' | hr'
      · exact hwf r hr'
      · rw [List.mem_singleton] at hr'
        exact hr' ▸ wf_freshRec cand recName now

theorem wfStore_consumeUpdate (s : Store) (t : String) (now : Nat)
    (e p ip : String) (hwf : wfStore s) :
    wfStore (consumeUpdate s t now e p ip).1 := by
  intro r' hr'
  obtain ⟨r, hr, rfl⟩ := List.mem_map.mp hr'
  unfold consumeSet
  by_cases hcond : (r.token == t && r.used == 0) = true
  · rw [if_pos hcond]
    unfold wfRec
    simp
  · rw [if_neg hcond]
    exact hwf r hr

/-- C8.  Each operation preserves the token-record invariants:
generated rows start `unused` with null `used_at` and existing rows
pass through generation untouched; the consume transition keeps
`used_at` non-null exactly on used rows, leaves used rows and rows with
a different key entirely unchanged (so `unused → used` is the only
transition); Verify writes nothing; Reset only bulk-clears. -/
theorem ops_preserve_invariants (oracle : GenOracle) (s : Store)
    (count idx : Nat) (recName : Option String) (t : String) (now : Nat)
    (e p ip : String) (hwf : wfStore s) :
    wfStore (generateLoop oracle recName now s idx count).1 ∧
    (∀ r ∈ s, r ∈ (generateLoop oracle recName now s idx count).1) ∧
    wfStore (consume s t now e p ip).1 ∧
    (∀ r ∈ s, r.used = 1 → r ∈ (consume s t now e p ip).1) ∧
    (∀ r ∈ s, r.token ≠ t → r ∈ (consume s t now e p ip).1) ∧
    (verifyEndpoint s t).1 = s ∧
    wfStore (reset s) := by
  refine ⟨wfStore_generateLoop oracle recName now count s idx hwf,
    fun r hr => generateLoop_mem oracle recName now count s idx r hr,
    ?_, ?_, ?_, rfl, ?_⟩
  · rw [consume_fst]
    exact wfStore_consumeUpdate s t now e p ip hwf
  · intro r hr hused
    rw [consume_fst]
    have hcond : (r.token == t && r.used == 0) = false := by
      simp [hused]
    have : consumeSet t now e p ip r = r := by
      unfold consumeSet
      rw [hcond]
      simp
    exact this ▸ List.mem_map_of_mem _ hr
  · intro r hr htok
    rw [consume_fst]
    have hcond : (r.token == t && r.used == 0) = false := by
      simp [htok]
    have : consumeSet t now e p ip r = r := by
      unfold consumeSet
      rw [hcond]
      simp
    exact this ▸ List.mem_map_of_mem _ hr
  · intro r hr
    cases hr

/-- Witness for `ops_preserve_invariants` on a concrete one-row store:
the consumed table stays well-formed. -/
theorem ops_preserve_invariants_witness :
    wfStore (consume [freshRec "AAA1111" none 0] "AAA1111" 5 "e" "p" "i").1 := by
  exact (ops_preserve_invariants (fun _ => ("BBB2222", false))
    [freshRec "AAA1111" none 0] 1 0 none "AAA1111" 5 "e" "p" "i"
    (by unfold wfStore wfRec; decide)).2.2.1

/-- Control state of one in-flight `POST /api/consume/:token` request:
it has not yet issued its conditional `UPDATE`, or the update affected
zero rows and the diagnostic follow-up `SELECT` is still pending, or
the response has been sent. -/
inductive CState where
  | start
  | needRead
  | done (r : ConsumeResult)
deriving Repr, DecidableEq

/-- One atomic database access of a pool of concurrent consume requests
for the same token `t`, interleaved in any order.  Each request first
runs the conditional `UPDATE` (server.js lines 148-151) as one atomic
step — succeeding exactly when the update reports one affected row —
and, if the update affected zero rows, later runs the diagnostic
`SELECT` (lines 153-156) as a second atomic step against whatever store
state holds at that moment.  Timestamp and identity arguments are free
per step, as each request carries its own. -/
inductive ConsumeStep (t : String) :
    Store × List CState → Store × List CState → Prop where
  | update (s : Store) (l₁ l₂ : List CState) (now : Nat) (e p ip : String) :
      ConsumeStep t (s, l₁ ++ CState.start :: l₂)
        ((consumeUpdate s t now e p ip).1,
         l₁ ++ (if (consumeUpdate s t now e p ip).2 = 0 then CState.needRead
                else CState.done .success) :: l₂)
  | read (s : Store) (l₁ l₂ : List CState) :
      ConsumeStep t (s, l₁ ++ CState.needRead :: l₂)
        (s, l₁ ++ CState.done (consumeClassify s t) :: l₂)

/-- Invariant of the concurrent-consume system for a token `t` that
started fresh: the store always holds exactly one row for `t`; while it
is unused nobody has finished or even fallen into the follow-up read;
once it is used, exactly one request reported success and every other
request is pending or has reported `already_used`. -/
def ConsumeInv (t : String) (σ : Store × List CState) : Prop :=
  ∃ r, selectByToken σ.1 t = [r] ∧
    ((r.used = 0 ∧ ∀ c ∈ σ.2, c = CState.start) ∨
     (r.used = 1 ∧ σ.2.count (CState.done .success) = 1 ∧
       ∀ c ∈ σ.2, c = CState.start ∨ c = CState.needRead ∨
         c = CState.done .success ∨ c = CState.done .alreadyUsed))

/-- The map the consume `UPDATE` applies never changes a row's key, so
selecting by key commutes with it. -/
theorem selectByToken_consumeUpdate (s : Store) (t u : String) (now : Nat)
    (e p ip : String) :
    selectByToken (consumeUpdate s t now e p ip).1 u =
      (selectByToken s u).map (consumeSet t now e p ip) := by
  have htok : ∀ a : TokenRec, (consumeSet t now e p ip a).token = a.token := by
    intro a
    unfold consumeSet
    split <;> rfl
  induction s with
  | nil => rfl
  | cons a s ih =>
    show List.filter (fun x => x.token == u)
        (consumeSet t now e p ip a :: s.map (consumeSet t now e p ip)) =
      ((a :: s).filter (fun x => x.token == u)).map (consumeSet t now e p ip)
    rw [List.filter_cons, List.filter_cons, htok a]
    by_cases hc : (a.token == u) = true
    · rw [if_pos hc, if_pos hc, List.map_cons]
      congr 1
    · rw [if_neg hc, if_neg hc]
      exact ih

/-- The conditional update in terms of the unique row for `t`: on an
unused row it reports one affected row and flips exactly that row to
used; on a used row it reports zero affected rows and leaves the store
unchanged. -/
theorem consumeUpdate_of_selectByToken (s : Store) (t : String) (now : Nat)
    (e p ip : String) {r : TokenRec} (hsel : selectByToken s t = [r]) :
    (r.used = 0 →
      (consumeUpdate s t now e p ip).2 = 1 ∧
      selectByToken (consumeUpdate s t now e p ip).1 t =
        [{ r with used := 1, usedAt := some now, activatedBy := some e,
                  authProvider := some p, ipAddress := some ip }]) ∧
    (r.used ≠ 0 →
      (consumeUpdate s t now e p ip).2 = 0 ∧
      (consumeUpdate s t now e p ip).1 = s) := by
  have hrt : r.token = t := by
    have : r ∈ selectByToken s t := by rw [hsel]; simp
    exact (mem_of_mem_selectByToken this).2
  constructor
  · intro h0
    have hcount : (consumeUpdate s t now e p ip).2 = 1 := by
      rw [consumeUpdate_rowCount, hsel]
      simp [List.filter_cons, h0]
    refine ⟨hcount, ?_⟩
    rw [selectByToken_consumeUpdate, hsel, List.map_cons]
    unfold consumeSet
    rw [if_pos (by simp [hrt, h0])]
    rfl
  · intro hne
    have hcount : (consumeUpdate s t now e p ip).2 = 0 := by
      rw [consumeUpdate_rowCount, hsel]
      simp only [List.filter_cons]
      have : (r.used == 0) = false := by
        simp only [beq_eq_false_iff_ne, ne_eq]
        exact hne
      simp [this]
    exact ⟨hcount, consumeUpdate_store_of_zero hcount⟩

/-- Every step of the concurrent-consume system preserves the length of
the request vector. -/
theorem consumeStep_len {t : String} {σ σ' : Store × List CState}
    (h : ConsumeStep t σ σ') : σ'.2.length = σ.2.length := by
  cases h <;> simp

/-- A list whose members are all `start` contains no `done` state. -/
theorem count_done_of_all_start {l : List CState}
    (h : ∀ c ∈ l, c = CState.start) (res : ConsumeResult) :
    l.count (CState.done res) = 0 := by
  rw [List.count_eq_zero]
  intro hmem
  cases h _ hmem

/-- Each step of the concurrent-consume system preserves the invariant. -/
theorem consumeInv_step {t : String} {σ σ' : Store × List CState}
    (hstep : ConsumeStep t σ σ') (hinv : ConsumeInv t σ) :
    ConsumeInv t σ' := by
  obtain ⟨r, hsel, hcases⟩ := hinv
  cases hstep with
  | update s l₁ l₂ now e p ip =>
    rcases hcases with ⟨h0, hall⟩ | ⟨h1, hcount, hall⟩
    · -- the row is still unused: this update wins
      obtain ⟨hn, hsel'⟩ :=
        (consumeUpdate_of_selectByToken s t now e p ip hsel).1 h0
      refine ⟨_, hsel', .inr ⟨rfl, ?_, ?_⟩⟩
      · rw [if_neg (by omega)]
        rw [List.count_append, List.count_cons]
        have hl₁ : List.count (CState.done .success) l₁ = 0 :=
          count_done_of_all_start (fun c hc => hall c (by simp [hc])) _
        have hl₂ : List.count (CState.done .success) l₂ = 0 :=
          count_done_of_all_start (fun c hc => hall c (by simp [hc])) _
        simp [hl₁, hl₂]
      · intro c hc
        rw [if_neg (by omega)] at hc
        rcases List.mem_append.mp hc with hc' | hc'
        · exact .inl (hall c (by simp [hc']))
        · rcases List.mem_cons.mp hc' with rfl | hc''
          · exact .inr (.inr (.inl rfl))
          · exact .inl (hall c (by simp [hc'']))
    · -- the row is already used: this update loses and goes to the read
      obtain ⟨hn, hst⟩ :=
        (consumeUpdate_of_selectByToken s t now e p ip hsel).2 (by omega)
      rw [if_pos hn]
      refine ⟨r, by rw [hst]; exact hsel, .inr ⟨h1, ?_, ?_⟩⟩
      · rw [List.count_append, List.count_cons] at hcount ⊢
        simpa using hcount
      · intro c hc
        rcases List.mem_append.mp hc with hc' | hc'
        · exact hall c (by simp [hc'])
        · rcases List.mem_cons.mp hc' with rfl | hc''
          · exact .inr (.inl rfl)
          · exact hall c (by simp [hc''])
  | read s l₁ l₂ =>
    rcases hcases with ⟨h0, hall⟩ | ⟨h1, hcount, hall⟩
    · exact absurd (hall CState.needRead (by simp)) (by simp)
    · have hclass : consumeClassify s t = .alreadyUsed := by
        unfold consumeClassify
        rw [hsel]
        simp [h1]
      rw [hclass]
      refine ⟨r, hsel, .inr ⟨h1, ?_, ?_⟩⟩
      · rw [List.count_append, List.count_cons] at hcount ⊢
        simpa using hcount
      · intro c hc
        rcases List.mem_append.mp hc with hc' | hc'
        · exact hall c (by simp [hc'])
        · rcases List.mem_cons.mp hc' with rfl | hc''
          · exact .inr (.inr (.inr rfl))
          · exact hall c (by simp [hc''])

/-- The invariant and the request-vector length propagate along any
interleaved run. -/
theorem consumeRun_inv {t : String} {σ₀ σ : Store × List CState}
    (hrun : Relation.ReflTransGen (ConsumeStep t) σ₀ σ)
    (hinv : ConsumeInv t σ₀) :
    ConsumeInv t σ ∧ σ.2.length = σ₀.2.length := by
  induction hrun with
  | refl => exact ⟨hinv, rfl⟩
  | tail _ hstep ih =>
    exact ⟨consumeInv_step hstep ih.1, (consumeStep_len hstep).trans ih.2⟩

/-- In a list over two distinguished values, the two counts add up to
the length. -/
theorem count_two_values {α : Type} [DecidableEq α] (l : List α) (a b : α)
    (hab : a ≠ b) (h : ∀ c ∈ l, c = a ∨ c = b) :
    l.count a + l.count b = l.length := by
  induction l with
  | nil => simp
  | cons x l ih =>
    have ht := ih (fun c hc => h c (by simp [hc]))
    rcases h x (by simp) with rfl | rfl
    · rw [List.count_cons_self, List.count_cons_of_ne (by simp [Ne, hab.symm] : b ≠ x)]
      simp only [List.length_cons]
      omega
    · rw [List.count_cons_of_ne (by simp [Ne, hab] : a ≠ x), List.count_cons_self]
      simp only [List.length_cons]
      omega

/-- C1.  Starting from a store holding the token `t` as its unique,
unused row, run `N ≥ 2` concurrent Consume calls for `t`, interleaving
their atomic conditional updates and diagnostic follow-up reads in any
order.  When every call has finished, exactly one reported success and
the remaining `N - 1` reported `already_used`; the `unused → used`
transition happened exactly once (the invariant keeps a single row for
`t` throughout). -/
theorem consume_exactly_once (s₀ : Store) (t : String) (r₀ : TokenRec)
    (N : Nat) (hsel : selectByToken s₀ t = [r₀]) (hfresh : r₀.used = 0)
    (hN : 2 ≤ N) (σ : Store × List CState)
    (hrun : Relation.ReflTransGen (ConsumeStep t)
      (s₀, List.replicate N CState.start) σ)
    (hdone : ∀ c ∈ σ.2, ∃ res, c = CState.done res) :
    σ.2.count (CState.done .success) = 1 ∧
    σ.2.count (CState.done .alreadyUsed) = N - 1 := by
  have hinit : ConsumeInv t (s₀, List.replicate N CState.start) :=
    ⟨r₀, hsel, .inl ⟨hfresh, fun c hc => List.eq_of_mem_replicate hc⟩⟩
  obtain ⟨⟨r, hselr, hcases⟩, hlen⟩ := consumeRun_inv hrun hinit
  rw [List.length_replicate] at hlen
  rcases hcases with ⟨h0, hall⟩ | ⟨h1, hcount, hall⟩
  · exfalso
    have hne : σ.2 ≠ [] := by
      intro hnil
      rw [hnil] at hlen
      simp at hlen
      omega
    obtain ⟨c, hc⟩ := List.exists_mem_of_ne_nil σ.2 hne
    obtain ⟨res, hres⟩ := hdone c hc
    have := hall c hc
    rw [this] at hres
    cases hres
  · refine ⟨hcount, ?_⟩
    have hsplit : ∀ c ∈ σ.2,
        c = CState.done .success ∨ c = CState.done .alreadyUsed := by
      intro c hc
      obtain ⟨res, hres⟩ := hdone c hc
      rcases hall c hc with h | h | h | h
      · rw [h] at hres; cases hres
      · rw [h] at hres; cases hres
      · exact .inl h
      · exact .inr h
    have hsum := count_two_values σ.2 (CState.done .success)
      (CState.done .alreadyUsed) (by simp) hsplit
    omega

/-- The store after the winning update of the concrete two-consumer
run used as witness below. -/
def witnessUsedStore : Store :=
  [{ freshRec "AAA1111" none 0 with
      used := 1, usedAt := some 5, activatedBy := some "e",
      authProvider := some "p", ipAddress := some "i" }]

/-- Witness for `consume_exactly_once`: a concrete run of two
concurrent consumers of a fresh token in which the first update wins,
the second update loses and its follow-up read reports
`already_used`. -/
theorem consume_exactly_once_witness :
    ((witnessUsedStore,
      [CState.done ConsumeResult.success,
       CState.done ConsumeResult.alreadyUsed]) :
        Store × List CState).2.count (CState.done .success) = 1 ∧
    ((witnessUsedStore,
      [CState.done ConsumeResult.success,
       CState.done ConsumeResult.alreadyUsed]) :
        Store × List CState).2.count (CState.done .alreadyUsed) = 2 - 1 := by
  refine consume_exactly_once [freshRec "AAA1111" none 0] "AAA1111"
    (freshRec "AAA1111" none 0) 2 (by decide) rfl (by decide)
    (witnessUsedStore,
      [CState.done ConsumeResult.success,
       CState.done ConsumeResult.alreadyUsed]) ?_ ?_
  · have step1 : ConsumeStep "AAA1111"
        (([freshRec "AAA1111" none 0] : Store),
          [CState.start, CState.start])
        ((witnessUsedStore : Store), [CState.done .success, CState.start]) := by
      have h := ConsumeStep.update (t := "AAA1111")
        [freshRec "AAA1111" none 0] [] [CState.start] 5 "e" "p" "i"
      have he : (((consumeUpdate [freshRec "AAA1111" none 0] "AAA1111"
            5 "e" "p" "i").1,
          ([] : List CState) ++
            (if (consumeUpdate [freshRec "AAA1111" none 0] "AAA1111"
                  5 "e" "p" "i").2 = 0 then CState.needRead
             else CState.done .success) :: [CState.start]) :
            Store × List CState) =
          ((witnessUsedStore : Store),
            [CState.done .success, CState.start]) := by decide
      rw [← he]
      exact h
    have step2 : ConsumeStep "AAA1111"
        ((witnessUsedStore : Store), [CState.done .success, CState.start])
        ((witnessUsedStore : Store),
          [CState.done .success, CState.needRead]) := by
      have h := ConsumeStep.update (t := "AAA1111") witnessUsedStore
        [CState.done .success] [] 6 "f" "q" "j"
      have he : (((consumeUpdate witnessUsedStore "AAA1111" 6 "f" "q" "j").1,
          [CState.done ConsumeResult.success] ++
            (if (consumeUpdate witnessUsedStore "AAA1111" 6 "f" "q" "j").2 = 0
             then CState.needRead
             else CState.done .success) :: ([] : List CState)) :
            Store × List CState) =
          ((witnessUsedStore : Store),
            [CState.done .success, CState.needRead]) := by decide
      rw [← he]
      exact h
    have step3 : ConsumeStep "AAA1111"
        ((witnessUsedStore : Store), [CState.done .success, CState.needRead])
        ((witnessUsedStore : Store),
          [CState.done .success, CState.done .alreadyUsed]) := by
      have h := ConsumeStep.read (t := "AAA1111") witnessUsedStore
        [CState.done .success] []
      have he : (((witnessUsedStore : Store),
          [CState.done ConsumeResult.success] ++
            CState.done (consumeClassify witnessUsedStore "AAA1111") ::
              ([] : List CState)) : Store × List CState) =
          ((witnessUsedStore : Store),
            [CState.done .success, CState.done .alreadyUsed]) := by decide
      rw [← he]
      exact h
    exact Relation.ReflTransGen.tail
      (Relation.ReflTransGen.tail
        (Relation.ReflTransGen.tail Relation.ReflTransGen.refl step1)
        step2)
      step3
  · intro c hc
    rcases List.mem_cons.mp hc with rfl | hc'
    · exact ⟨_, rfl⟩
    · rcases List.mem_cons.mp hc' with rfl | hc''
      · exact ⟨_, rfl⟩
      · cases hc''

/-- Witness for `verify_spec` at a concrete two-row store. -/
theorem verify_spec_witness :
    (verifyEndpoint [freshRec "AAA1111" none 0,
        { freshRec "BBB2222" none 1 with used := 1, usedAt := some 5 }]
      "AAA1111").2 = .valid ∧
    (verifyEndpoint [freshRec "AAA1111" none 0,
        { freshRec "BBB2222" none 1 with used := 1, usedAt := some 5 }]
      "BBB2222").2 = .used := by
  constructor
  · exact (verify_spec _ "AAA1111" (by unfold uniqueTokens; decide)).2.2.2.1
      (freshRec "AAA1111" none 0) (by simp) (by decide) (by decide)
  · exact (verify_spec _ "BBB2222" (by unfold uniqueTokens; decide)).2.2.1
      { freshRec "BBB2222" none 1 with used := 1, usedAt := some 5 }
      (by simp) (by decide) (by decide)

end InviteService
